import Mathlib

/-!
Verification of the FrugalAI proxy core: a shallow embedding of the
candidate ranker (`internal/model/selector.go`), the model-manager failover
state machine (`internal/server/anthropic/handler.go`,
`internal/server/openai/handler.go`, `cmd/frugalai/main.go`) and the
Anthropic-to-internal request conversion
(`internal/server/openai/handler.go`), together with proofs of the
spec-level properties.

Numbers: Go `int` is embedded as `Int` (no overflow occurs in the ranges
exercised), failure/timeout counters as `Nat`, and `float64` score
arithmetic as exact rational arithmetic over `ℚ`.  The transcendental
`math.Log` used by the popularity normalisation is abstracted as an
explicit function parameter `L : ℚ → ℚ`; no proved statement depends on
its values.  Timestamps (`time.Time`) are embedded as `Nat` seconds.
-/

namespace FrugalAI

/-- Model architecture information (`internal/openrouter/types.go`).
Only the fields the core logic reads are embedded. -/
structure Architecture where
  Modality : String
  Tokenizer : String
deriving Repr, DecidableEq

/-- Model pricing (`internal/openrouter/types.go`); prices are the upstream
strings, compared literally against "0". -/
structure Pricing where
  Prompt : String
  Completion : String
deriving Repr, DecidableEq

/-- An OpenRouter catalog model (`internal/openrouter/types.go`). -/
structure Model where
  ID : String
  Name : String
  Pricing : Pricing
  Architecture : Architecture
  ContextLength : Int
  Popularity : Int
  Params : Int
deriving Repr, DecidableEq

/-- The configuration fields read by the ranker (`internal/config/config.go`). -/
structure Config where
  MinParams : Int
  MinPopularity : Int
  PreferredArchitectures : List String
deriving Repr, DecidableEq

/-- Go `strings.Contains`: `pat` occurs as a contiguous substring of `s`. -/
def strContains (s pat : String) : Bool :=
  decide (pat.data <:+: s.data)

/-- Go `strings.ToLower`, embedded as a character-wise map over the
string's characters. -/
def strToLower (s : String) : String :=
  { data := s.data.map Char.toLower }

/-- `normalizePopularity` (`internal/model/selector.go`): popularity
normalised to 0-1 on a logarithmic scale, floor 0.1 for unknown values.
`L` abstracts `math.Log`. -/
def normalizePopularity (L : ℚ → ℚ) (popularity : Int) : ℚ :=
  if popularity ≤ 0 then 1/10
  else min (L (popularity : ℚ) / L 1000000) 1

/-- `normalizeParams` (`internal/model/selector.go`): parameter count
normalised linearly against 70B, floor 0.1 for unknown values. -/
def normalizeParams (params : Int) : ℚ :=
  if params ≤ 0 then 1/10
  else min ((params : ℚ) / 70000000000) 1

/-- `normalizeContextLength` (`internal/model/selector.go`): context length
normalised linearly against 200k, floor 0.1 for unknown values. -/
def normalizeContextLength (length : Int) : ℚ :=
  if length ≤ 0 then 1/10
  else min ((length : ℚ) / 200000) 1

/-- `isPreferredArchitecture` (`internal/model/selector.go`). -/
def isPreferredArchitecture (cfg : Config) (modality tokenizer : String) : Bool :=
  if cfg.PreferredArchitectures.isEmpty then false
  else
    let combined := strToLower modality ++ " " ++ strToLower tokenizer
    cfg.PreferredArchitectures.any fun preferred =>
      strContains combined (strToLower preferred)

/-- The fixed table of quality-indicator pattern groups
(`internal/model/selector.go`, `getModelQualityBonus`). -/
def qualityIndicators : List (List String × ℚ) :=
  [(["claude", "anthropic"], 15/100),
   (["gpt-", "openai"], 12/100),
   (["gemini", "google"], 10/100),
   (["mistral", "mixtral"], 8/100),
   (["llama", "meta"], 8/100),
   (["qwen"], 7/100),
   (["deepseek"], 7/100),
   (["command", "cohere"], 6/100),
   (["xiaomi", "mimo"], 8/100),
   (["kwaipilot", "kat-coder"], 8/100),
   (["nvidia", "nemotron"], 7/100),
   (["olmo", "allenai"], 6/100),
   (["trinity", "arcee"], 6/100)]

/-- The list of weak-model substrings penalised in the id
(`internal/model/selector.go`, `getModelQualityBonus`). -/
def weakIndicators : List String := ["tiny", "mini", "nano", "micro"]

/-- `getModelQualityBonus` (`internal/model/selector.go`): each matching
pattern group contributes its bonus at most once; "flash" and "pro" add
small bonuses; each weak indicator found in the id subtracts 0.05. -/
def getModelQualityBonus (name id : String) : ℚ :=
  let nameLower := strToLower name
  let idLower := strToLower id
  let familyBonus := qualityIndicators.foldl
    (fun bonus indicator =>
      if indicator.1.any fun pattern =>
          strContains idLower pattern || strContains nameLower pattern
      then bonus + indicator.2 else bonus) 0
  let flashBonus : ℚ :=
    if strContains idLower "flash" || strContains nameLower "flash" then 3/100 else 0
  let proBonus : ℚ :=
    if strContains idLower "pro" || strContains nameLower "pro" then 2/100 else 0
  let weakPenalty := weakIndicators.foldl
    (fun acc indicator => if strContains idLower indicator then acc - 5/100 else acc) 0
  familyBonus + flashBonus + proBonus + weakPenalty

/-- `calculateScore` (`internal/model/selector.go`): weighted sum of the
three normalised terms plus the architecture bonus and the quality bonus. -/
def calculateScore (L : ℚ → ℚ) (cfg : Config) (m : Model) : ℚ :=
  normalizePopularity L m.Popularity * (3/10)
    + normalizeParams m.Params * (4/10)
    + normalizeContextLength m.ContextLength * (2/10)
    + (if isPreferredArchitecture cfg m.Architecture.Modality m.Architecture.Tokenizer
       then (1:ℚ)/10 else 0)
    + getModelQualityBonus m.Name m.ID

/-- `filterModels` (`internal/model/selector.go`): drop a model when a
positive `MinParams` exceeds its parameter count, or a positive
`MinPopularity` exceeds its popularity. -/
def filterModels (cfg : Config) (models : List Model) : List Model :=
  models.filter fun m =>
    !(decide (0 < cfg.MinParams) && decide (m.Params < cfg.MinParams)) &&
    !(decide (0 < cfg.MinPopularity) && decide (m.Popularity < cfg.MinPopularity))

/-- A scored candidate (`internal/openrouter/types.go`, `ModelScore`). -/
structure ModelScore where
  Model : Model
  Score : ℚ
deriving Repr, DecidableEq

/-- `scoreModels` (`internal/model/selector.go`). -/
def scoreModels (L : ℚ → ℚ) (cfg : Config) (models : List Model) : List ModelScore :=
  models.map fun m => { Model := m, Score := calculateScore L cfg m }

/-- The `sort.Slice(scored, func(i, j) { return scored[i].Score > scored[j].Score })`
call in `SelectBest`/`GetTopCandidates`: a deterministic sort by score
descending (Go's sort is unstable but deterministic for a fixed input;
the properties proved below only use that the result is a permutation). -/
def sortByScoreDesc (scored : List ModelScore) : List ModelScore :=
  scored.mergeSort fun a b => decide (b.Score ≤ a.Score)

/-- `GetTopCandidates` (`internal/model/selector.go`), with the already
fetched free-model catalog passed as `models`. -/
def GetTopCandidates (L : ℚ → ℚ) (cfg : Config) (models : List Model) (n : Int) :
    Except String (List Model) :=
  if models.isEmpty then .error "no free models available"
  else
    let filtered := filterModels cfg models
    if filtered.isEmpty then .error "no models match the constraints"
    else
      let scored := sortByScoreDesc (scoreModels L cfg filtered)
      .ok ((scored.take n.toNat).map fun s => s.Model)

/-- `SelectBest` (`internal/model/selector.go`), with the already fetched
free-model catalog passed as `models`. -/
def SelectBest (L : ℚ → ℚ) (cfg : Config) (models : List Model) :
    Except String Model :=
  if models.isEmpty then .error "no free models available"
  else
    let filtered := filterModels cfg models
    if filtered.isEmpty then .error "no models match the constraints"
    else
      match (sortByScoreDesc (scoreModels L cfg filtered)).head? with
      | some s => .ok s.Model
      | none => .error "no models match the constraints"

/-! ## Model Manager (`internal/openrouter/types.go`, handler methods) -/

/-- `ModelManager` (`internal/openrouter/types.go`): the mutable failover
state.  The Go maps (default value on missing keys) are embedded as total
functions; `Current` is `*Model` embedded as `Option Model`. -/
structure ModelManager where
  Candidates : List Model
  Current : Option Model
  CurrentIdx : Nat
  Failures : String → Nat
  LastFailure : String → Option Nat
  Timeouts : String → Nat
  Burned : String → Bool

/-- The loop body of `switchToNextModel`
(`internal/server/anthropic/handler.go`, identical in the openai handler):
walk the given offsets, skip burned candidates and candidates with 3+
failures, select the first remaining one. -/
def switchLoop (mgr : ModelManager) : List Nat → ModelManager × Bool
  | [] => (mgr, false)
  | i :: rest =>
    let nextIdx := (mgr.CurrentIdx + i) % mgr.Candidates.length
    match mgr.Candidates[nextIdx]? with
    | none => switchLoop mgr rest
    | some nextModel =>
      if mgr.Burned nextModel.ID then switchLoop mgr rest
      else if 3 ≤ mgr.Failures nextModel.ID then switchLoop mgr rest
      else ({ mgr with Current := some nextModel, CurrentIdx := nextIdx }, true)

/-- `switchToNextModel` (`internal/server/anthropic/handler.go`): scan
offsets 1 .. len-1 from the current index, wrapping modulo the candidate
count. -/
def switchToNextModel (mgr : ModelManager) : ModelManager × Bool :=
  switchLoop mgr (List.range' 1 (mgr.Candidates.length - 1))

/-- The first two statements of `recordFailure`
(`internal/server/anthropic/handler.go`): increment the failure counter
and stamp the last-failure time. -/
def stampFailure (now : Nat) (mgr : ModelManager) (modelID : String) : ModelManager :=
  { mgr with
    Failures := fun id => if id = modelID then mgr.Failures id + 1 else mgr.Failures id,
    LastFailure := fun id => if id = modelID then some now else mgr.LastFailure id }

/-- The `shouldSwitch` expression of `recordFailure`
(`internal/server/anthropic/handler.go`): rate limit, server error, or 3+
recorded failures. -/
def shouldSwitchOn (mgr : ModelManager) (modelID : String) (statusCode : Int) : Bool :=
  decide (statusCode = 429) || decide (500 ≤ statusCode) ||
    decide (3 ≤ mgr.Failures modelID)

/-- `recordFailure` (`internal/server/anthropic/handler.go`): stamp the
failure, then switch when `shouldSwitch` holds and more than one candidate
exists; the returned Bool reports whether a switch happened. -/
def recordFailure (now : Nat) (mgr : ModelManager) (modelID : String)
    (statusCode : Int) : ModelManager × Bool :=
  let mgr1 := stampFailure now mgr modelID
  if shouldSwitchOn mgr1 modelID statusCode && decide (1 < mgr1.Candidates.length)
  then switchToNextModel mgr1
  else (mgr1, false)

/-- `recordTimeout` (`internal/server/anthropic/handler.go`): increment the
timeout counter, burn the model unconditionally, then try to switch when
more than one candidate exists. -/
def recordTimeout (mgr : ModelManager) (modelID : String) : ModelManager × Bool :=
  let mgr1 : ModelManager :=
    { mgr with
      Timeouts := fun id => if id = modelID then mgr.Timeouts id + 1 else mgr.Timeouts id,
      Burned := fun id => if id = modelID then true else mgr.Burned id }
  if decide (1 < mgr1.Candidates.length) then switchToNextModel mgr1
  else (mgr1, false)

/-- The lazy refresh performed by `candidatesHandler`
(`cmd/frugalai/main.go`): when the candidate pool is empty it is replaced
by the freshly fetched list; `Current` and `CurrentIdx` are not touched. -/
def refreshCandidates (mgr : ModelManager) (fetched : List Model) : ModelManager :=
  if mgr.Candidates.isEmpty then { mgr with Candidates := fetched } else mgr

/-- `modelSwitchHandler` (`cmd/frugalai/main.go`): the manual-select
endpoint advances to the next index cyclically; with no candidates it
reports an error and changes nothing. -/
def modelSelect (mgr : ModelManager) : ModelManager :=
  if mgr.Candidates.isEmpty then mgr
  else
    let nextIdx := (mgr.CurrentIdx + 1) % mgr.Candidates.length
    { mgr with Current := mgr.Candidates[nextIdx]?, CurrentIdx := nextIdx }

/-- The operations that mutate the model manager after creation. -/
inductive MgrOp where
  | failure (now : Nat) (modelID : String) (statusCode : Int)
  | timeout (modelID : String)
  | refresh (fetched : List Model)
  | select

/-- Apply one manager operation. -/
def applyOp (mgr : ModelManager) : MgrOp → ModelManager
  | .failure now modelID statusCode => (recordFailure now mgr modelID statusCode).1
  | .timeout modelID => (recordTimeout mgr modelID).1
  | .refresh fetched => refreshCandidates mgr fetched
  | .select => modelSelect mgr

/-- Apply a sequence of manager operations in order. -/
def applyOps (mgr : ModelManager) (ops : List MgrOp) : ModelManager :=
  ops.foldl applyOp mgr

/-- The manager created by `initializeModelManager` (`cmd/frugalai/main.go`)
when the initial catalog fetch fails: empty pool, no current model. -/
def emptyManager : ModelManager where
  Candidates := []
  Current := none
  CurrentIdx := 0
  Failures := fun _ => 0
  LastFailure := fun _ => none
  Timeouts := fun _ => 0
  Burned := fun _ => false

/-! ## Anthropic request decoding (`internal/server/openai/handler.go`) -/

/-- Dynamic JSON values, as produced by Go `encoding/json` into
`map[string]interface{}`; numbers (`float64`) are embedded as `ℚ`. -/
inductive Json where
  | null
  | bool (b : Bool)
  | num (q : ℚ)
  | str (s : String)
  | arr (elems : List Json)
  | obj (fields : List (String × Json))

/-- Go map lookup over decoded JSON object fields (later duplicate keys
overwrite earlier ones, as `encoding/json` does). -/
def jsonLookup (fields : List (String × Json)) (key : String) : Option Json :=
  fields.foldl (fun acc f => if f.1 = key then some f.2 else acc) none

/-- `ChatMessage` (`internal/openrouter/types.go`). -/
structure ChatMessage where
  Role : String
  Content : String
deriving Repr, DecidableEq

/-- `ChatRequest` (`internal/openrouter/types.go`), restricted to the
fields `ConvertAnthropicToOpenAI` writes; the rest keep their Go zero
values. -/
structure ChatRequest where
  Model : String := ""
  Messages : List ChatMessage := []
  Temperature : ℚ := 0
  MaxTokens : Int := 0
  TopP : ℚ := 0
  Stream : Bool := false
deriving Repr, DecidableEq

/-- Go `int(x)` conversion from `float64`: truncation toward zero. -/
def goIntOfNum (q : ℚ) : Int :=
  if 0 ≤ q then ⌊q⌋ else ⌈q⌉

/-- The content-block branch of `ConvertAnthropicToOpenAI`: a block
contributes its text exactly when it is an object whose "type" is the
string "text" and whose "text" field is a string. -/
def textOfBlock (block : Json) : Option String :=
  match block with
  | .obj fields =>
    match jsonLookup fields "type" with
    | some (.str blockType) =>
      if blockType = "text" then
        match jsonLookup fields "text" with
        | some (.str text) => some text
        | _ => none
      else none
    | _ => none
  | _ => none

/-- The content switch of `ConvertAnthropicToOpenAI`: a bare string is
taken as-is; an array keeps only text blocks, newline-joined; anything
else leaves the content empty. -/
def contentOfJson : Option Json → String
  | some (.str s) => s
  | some (.arr blocks) => String.intercalate "\n" (blocks.filterMap textOfBlock)
  | _ => ""

/-- The per-message body of `ConvertAnthropicToOpenAI`'s loop: non-object
entries are skipped; a system-role message is folded in as a user-role
message. -/
def msgToChat (msg : Json) : Option ChatMessage :=
  match msg with
  | .obj fields =>
    let role := match jsonLookup fields "role" with
      | some (.str r) => r
      | _ => ""
    let content := contentOfJson (jsonLookup fields "content")
    if role = "system" then some { Role := "user", Content := content }
    else some { Role := role, Content := content }
  | _ => none

/-- `ConvertAnthropicToOpenAI` (`internal/server/openai/handler.go`):
defaults temperature 0.7 and max_tokens 4096, overwritten only by numeric
fields; fails only when "messages" is not an array. -/
def ConvertAnthropicToOpenAI (anthropicReq : List (String × Json)) :
    Except String ChatRequest :=
  let req0 : ChatRequest := { Temperature := 7/10, MaxTokens := 4096 }
  let req1 := match jsonLookup anthropicReq "model" with
    | some (.str model) => { req0 with Model := model }
    | _ => req0
  let req2 := match jsonLookup anthropicReq "max_tokens" with
    | some (.num maxTokens) => { req1 with MaxTokens := goIntOfNum maxTokens }
    | _ => req1
  let req3 := match jsonLookup anthropicReq "temperature" with
    | some (.num temp) => { req2 with Temperature := temp }
    | _ => req2
  match jsonLookup anthropicReq "messages" with
  | some (.arr messages) => .ok { req3 with Messages := messages.filterMap msgToChat }
  | _ => .error "invalid messages format"

/-- `getCurrentModelID` (`internal/server/anthropic/handler.go`); the
selector fallback used when no current model is set involves a network
fetch and is abstracted as the `fallback` parameter. -/
def getCurrentModelID (mgr : ModelManager) (fallback : String) : String :=
  match mgr.Current with
  | some m => m.ID
  | none => fallback

/-- The decode-and-overwrite step of `handleMessages`
(`internal/server/anthropic/handler.go`): convert the body and replace the
nominal model with the Model Manager's current id. -/
def decodeAnthropicRequest (mgr : ModelManager) (fallback : String)
    (anthropicReq : List (String × Json)) : Except String ChatRequest :=
  match ConvertAnthropicToOpenAI anthropicReq with
  | .error e => .error e
  | .ok req => .ok { req with Model := getCurrentModelID mgr fallback }

/-! ## Concrete instances used by the witnesses -/

/-- A catalog model with all optional numeric fields unknown (zero). -/
def mZero : Model where
  ID := "zero/model"
  Name := "Zero"
  Pricing := { Prompt := "0", Completion := "0" }
  Architecture := { Modality := "text", Tokenizer := "tok" }
  ContextLength := 0
  Popularity := 0
  Params := 0

/-- A second all-zero catalog model with a different identity. -/
def mZero2 : Model := { mZero with ID := "zero/model-2", Name := "Zero Two" }

/-- A demo candidate. -/
def mA : Model := { mZero with ID := "model-a", Name := "Aleph", ContextLength := 1000 }

/-- Another demo candidate. -/
def mB : Model := { mZero with ID := "model-b", Name := "Bet", ContextLength := 2000 }

/-- A third demo candidate. -/
def mC : Model := { mZero with ID := "model-c", Name := "Gimel", ContextLength := 3000 }

/-- An unconstrained configuration. -/
def cfg0 : Config where
  MinParams := 0
  MinPopularity := 0
  PreferredArchitectures := []

/-- A trivial stand-in for the abstracted logarithm. -/
def L0 : ℚ → ℚ := fun _ => 0

/-! ## C9 — score of an all-unknown model before bonuses -/

/-- C9: for every model whose params, popularity and context length are all
zero, the computed score before the architecture-preference bonus and the
name/id quality bonus equals exactly 0.1*0.3 + 0.1*0.4 + 0.1*0.2 = 0.09
(each normalised term takes its 0.1 floor). -/
theorem score_zero_model (L : ℚ → ℚ) (cfg : Config) (m : Model)
    (hparams : m.Params = 0) (hpop : m.Popularity = 0) (hctx : m.ContextLength = 0) :
    calculateScore L cfg m =
      ((1:ℚ)/10) * (3/10) + ((1:ℚ)/10) * (4/10) + ((1:ℚ)/10) * (2/10)
        + (if isPreferredArchitecture cfg m.Architecture.Modality m.Architecture.Tokenizer
           then (1:ℚ)/10 else 0)
        + getModelQualityBonus m.Name m.ID ∧
    ((1:ℚ)/10) * (3/10) + ((1:ℚ)/10) * (4/10) + ((1:ℚ)/10) * (2/10) = 9/100 := by
  constructor
  · unfold calculateScore normalizePopularity normalizeParams normalizeContextLength
    rw [hparams, hpop, hctx]
    norm_num
  · norm_num

/-- C9 witness: the all-zero model evaluates to the claimed base score. -/
theorem score_zero_model_witness :
    mZero.Params = 0 ∧ mZero.Popularity = 0 ∧ mZero.ContextLength = 0 ∧
    (calculateScore L0 cfg0 mZero =
      ((1:ℚ)/10) * (3/10) + ((1:ℚ)/10) * (4/10) + ((1:ℚ)/10) * (2/10)
        + (if isPreferredArchitecture cfg0 mZero.Architecture.Modality
             mZero.Architecture.Tokenizer then (1:ℚ)/10 else 0)
        + getModelQualityBonus mZero.Name mZero.ID ∧
     ((1:ℚ)/10) * (3/10) + ((1:ℚ)/10) * (4/10) + ((1:ℚ)/10) * (2/10) = 9/100) :=
  ⟨rfl, rfl, rfl, score_zero_model L0 cfg0 mZero rfl rfl rfl⟩

/-! ## C8 — filtering is monotone in the MinParams constraint -/

/-- C8: raising MinParams (all other constraints fixed) never increases
the filtered set: the set filtered under a larger threshold is a sublist
(hence a subset) of the set filtered under a smaller one, so its size
never increases. -/
theorem filterModels_monotone (cfg₁ cfg₂ : Config) (models : List Model)
    (hmin : cfg₁.MinParams ≤ cfg₂.MinParams)
    (hpop : cfg₁.MinPopularity = cfg₂.MinPopularity) :
    (filterModels cfg₂ models).Sublist (filterModels cfg₁ models) ∧
    (filterModels cfg₂ models).length ≤ (filterModels cfg₁ models).length := by
  have hsub : (filterModels cfg₂ models).Sublist (filterModels cfg₁ models) := by
    apply List.monotone_filter_right
    intro m hm
    simp only [Bool.and_eq_true, Bool.not_eq_true', Bool.and_eq_false_iff,
      decide_eq_false_iff_not, not_lt, decide_eq_true_eq] at hm ⊢
    rw [hpop]
    omega
  exact ⟨hsub, hsub.length_le⟩

/-- C8 witness: filtering two concrete models under thresholds 0 and 5. -/
theorem filterModels_monotone_witness :
    ({ cfg0 with MinParams := 0 } : Config).MinParams ≤
      ({ cfg0 with MinParams := 5 } : Config).MinParams ∧
    ({ cfg0 with MinParams := 0 } : Config).MinPopularity =
      ({ cfg0 with MinParams := 5 } : Config).MinPopularity ∧
    ((filterModels { cfg0 with MinParams := 5 } [mZero, mA]).Sublist
      (filterModels { cfg0 with MinParams := 0 } [mZero, mA]) ∧
     (filterModels { cfg0 with MinParams := 5 } [mZero, mA]).length ≤
      (filterModels { cfg0 with MinParams := 0 } [mZero, mA]).length) :=
  ⟨by decide, by decide,
    filterModels_monotone { cfg0 with MinParams := 0 } { cfg0 with MinParams := 5 }
      [mZero, mA] (by decide) (by decide)⟩

/-! ## C3 — totality of the ranking (refuted and amended) -/

/-- C3 counterexample: on an empty catalog `GetTopCandidates` returns an
error rather than an empty ordered output. -/
theorem getTopCandidates_empty_error :
    GetTopCandidates L0 cfg0 [] 10 = Except.error "no free models available" := rfl

/-- C3 amended: ranking fails on an empty catalog and when every model is
filtered out; when the filtered set is non-empty, requesting the top N
with N at least the filtered set's size succeeds and returns all of the
filtered set (as a permutation, reordered by score), never an error. -/
theorem getTopCandidates_amended (L : ℚ → ℚ) (cfg : Config) (models : List Model)
    (n : Int) (hne : filterModels cfg models ≠ [])
    (hn : ((filterModels cfg models).length : Int) ≤ n) :
    ∃ result, GetTopCandidates L cfg models n = .ok result ∧
      result.Perm (filterModels cfg models) := by
  have hm : models ≠ [] := by
    intro h
    exact hne (by rw [h]; rfl)
  have hperm : (sortByScoreDesc (scoreModels L cfg (filterModels cfg models))).Perm
      (scoreModels L cfg (filterModels cfg models)) :=
    List.mergeSort_perm _ _
  have hlen' : (sortByScoreDesc (scoreModels L cfg (filterModels cfg models))).length =
      (filterModels cfg models).length := by
    rw [hperm.length_eq]
    simp [scoreModels]
  refine ⟨((sortByScoreDesc (scoreModels L cfg (filterModels cfg models))).take
      n.toNat).map fun s => s.Model, ?_, ?_⟩
  · unfold GetTopCandidates
    rw [if_neg (by simpa [List.isEmpty_iff] using hm),
      if_neg (by simpa [List.isEmpty_iff] using hne)]
  · rw [List.take_of_length_le (by rw [hlen']; omega)]
    have hmap : List.map (fun s => s.Model) (scoreModels L cfg (filterModels cfg models)) =
        filterModels cfg models := by
      unfold scoreModels
      rw [List.map_map]
      exact List.map_id'' (fun m => rfl) _
    refine (hperm.map fun s => s.Model).trans ?_
    rw [hmap]

/-- C3 amended witness: one surviving model, N = 5. -/
theorem getTopCandidates_amended_witness :
    filterModels cfg0 [mZero] ≠ [] ∧
    ((filterModels cfg0 [mZero]).length : Int) ≤ 5 ∧
    (∃ result, GetTopCandidates L0 cfg0 [mZero] 5 = .ok result ∧
      result.Perm (filterModels cfg0 [mZero])) :=
  ⟨by decide, by decide, getTopCandidates_amended L0 cfg0 [mZero] 5 (by decide) (by decide)⟩

/-! ## C5 — the ranking is a deterministic function of its inputs -/

/-- C5: two calls of the ranking with identical inputs (catalog,
constraints, logarithm, and N) produce identical ordered output and
identical scores; the embedding is a pure function of these inputs, so the
result does not depend on anything else, in particular not on tie-breaking
among equal scores. -/
theorem rank_deterministic (L₁ L₂ : ℚ → ℚ) (cfg₁ cfg₂ : Config)
    (models₁ models₂ : List Model) (n₁ n₂ : Int)
    (hL : L₁ = L₂) (hcfg : cfg₁ = cfg₂) (hm : models₁ = models₂) (hn : n₁ = n₂) :
    GetTopCandidates L₁ cfg₁ models₁ n₁ = GetTopCandidates L₂ cfg₂ models₂ n₂ ∧
    scoreModels L₁ cfg₁ (filterModels cfg₁ models₁) =
      scoreModels L₂ cfg₂ (filterModels cfg₂ models₂) ∧
    SelectBest L₁ cfg₁ models₁ = SelectBest L₂ cfg₂ models₂ := by
  subst hL; subst hcfg; subst hm; subst hn
  exact ⟨rfl, rfl, rfl⟩

/-- C5 witness: a catalog with two distinct models of equal score. -/
theorem rank_deterministic_witness :
    calculateScore L0 cfg0 mZero = calculateScore L0 cfg0 mZero2 ∧
    mZero ≠ mZero2 ∧
    (GetTopCandidates L0 cfg0 [mZero, mZero2] 5 =
        GetTopCandidates L0 cfg0 [mZero, mZero2] 5 ∧
      scoreModels L0 cfg0 (filterModels cfg0 [mZero, mZero2]) =
        scoreModels L0 cfg0 (filterModels cfg0 [mZero, mZero2]) ∧
      SelectBest L0 cfg0 [mZero, mZero2] = SelectBest L0 cfg0 [mZero, mZero2]) :=
  ⟨by simp +decide [calculateScore, normalizePopularity, normalizeParams,
      normalizeContextLength, isPreferredArchitecture, getModelQualityBonus,
      qualityIndicators, weakIndicators, strContains, strToLower, mZero, mZero2, cfg0],
    by decide,
    rank_deterministic L0 L0 cfg0 cfg0 [mZero, mZero2] [mZero, mZero2] 5 5
      rfl rfl rfl rfl⟩

/-! ## Switch-procedure lemmas -/

/-- A candidate index is eligible for switching: in range, and its model
is neither burned nor has 3+ recorded failures (the two skip conditions of
`switchToNextModel`). -/
def eligibleAt (mgr : ModelManager) (j : Nat) : Bool :=
  match mgr.Candidates[j]? with
  | some c => !mgr.Burned c.ID && !(decide (3 ≤ mgr.Failures c.ID))
  | none => false

/-- The index order scanned by `switchToNextModel`: offsets 1 .. len-1
from the current index, wrapping modulo the candidate count. -/
def scanOrder (mgr : ModelManager) : List Nat :=
  (List.range' 1 (mgr.Candidates.length - 1)).map
    fun i => (mgr.CurrentIdx + i) % mgr.Candidates.length

lemma switchLoop_eq_find (mgr : ModelManager) (offsets : List Nat) :
    switchLoop mgr offsets =
      match (offsets.map fun i =>
          (mgr.CurrentIdx + i) % mgr.Candidates.length).find? (eligibleAt mgr) with
      | some j => ({ mgr with Current := mgr.Candidates[j]?, CurrentIdx := j }, true)
      | none => (mgr, false) := by
  induction offsets with
  | nil => rfl
  | cons i rest ih =>
    rw [List.map_cons]
    cases hc : mgr.Candidates[(mgr.CurrentIdx + i) % mgr.Candidates.length]? with
    | none =>
      rw [List.find?_cons_of_neg _ (by simp [eligibleAt, hc]), ← ih]
      simp only [switchLoop, hc]
    | some c =>
      by_cases hb : mgr.Burned c.ID
      · rw [List.find?_cons_of_neg _ (by simp [eligibleAt, hc, hb]), ← ih]
        simp only [switchLoop, hc, hb, if_true]
      · by_cases hf : 3 ≤ mgr.Failures c.ID
        · rw [List.find?_cons_of_neg _ (by simp [eligibleAt, hc, hb, hf]), ← ih]
          simp only [switchLoop, hc]
          rw [if_neg hb, if_pos hf]
        · rw [List.find?_cons_of_pos _ (by simp [eligibleAt, hc, hb, hf])]
          simp only [switchLoop, hc]
          rw [if_neg hb, if_neg hf]

lemma switchLoop_frame (mgr : ModelManager) (offsets : List Nat) :
    (switchLoop mgr offsets).1.Candidates = mgr.Candidates ∧
    (switchLoop mgr offsets).1.Failures = mgr.Failures ∧
    (switchLoop mgr offsets).1.LastFailure = mgr.LastFailure ∧
    (switchLoop mgr offsets).1.Timeouts = mgr.Timeouts ∧
    (switchLoop mgr offsets).1.Burned = mgr.Burned := by
  rw [switchLoop_eq_find]
  cases (offsets.map fun i =>
      (mgr.CurrentIdx + i) % mgr.Candidates.length).find? (eligibleAt mgr) with
  | none => exact ⟨rfl, rfl, rfl, rfl, rfl⟩
  | some j => exact ⟨rfl, rfl, rfl, rfl, rfl⟩

lemma eligibleAt_getElem {mgr : ModelManager} {j : Nat} (h : eligibleAt mgr j = true) :
    ∃ c, mgr.Candidates[j]? = some c ∧ mgr.Burned c.ID = false ∧
      mgr.Failures c.ID < 3 := by
  unfold eligibleAt at h
  cases hc : mgr.Candidates[j]? with
  | none => rw [hc] at h; cases h
  | some c =>
    rw [hc] at h
    simp only [Bool.and_eq_true, Bool.not_eq_true', decide_eq_false_iff_not, not_le] at h
    exact ⟨c, rfl, h.1, h.2⟩

/-! ## C1 — the failure-recording decision -/

/-- C1: for every model id and status code, `recordFailure` increments
`failures[model_id]`, stamps `last_failure_at[model_id]` with the current
time, and decides to switch exactly when the status is 429, or at least
500, or the (updated) failure count is at least 3 with the last failure
falling within the last 2 minutes — the last-failure stamp is the current
time, so the recency condition holds whenever the count condition does;
when it decides not to switch, the current model, candidate list and all
other state are unchanged apart from the failure counters. -/
theorem recordFailure_decision (now : Nat) (mgr : ModelManager) (modelID : String)
    (statusCode : Int) :
    (stampFailure now mgr modelID).Failures modelID = mgr.Failures modelID + 1 ∧
    (stampFailure now mgr modelID).LastFailure modelID = some now ∧
    (shouldSwitchOn (stampFailure now mgr modelID) modelID statusCode = true ↔
      (statusCode = 429 ∨ 500 ≤ statusCode ∨
        (3 ≤ (stampFailure now mgr modelID).Failures modelID ∧
          ∃ t, (stampFailure now mgr modelID).LastFailure modelID = some t ∧
            now < t + 120))) ∧
    (shouldSwitchOn (stampFailure now mgr modelID) modelID statusCode = false →
      ((recordFailure now mgr modelID statusCode).1.Current = mgr.Current ∧
        (recordFailure now mgr modelID statusCode).1.CurrentIdx = mgr.CurrentIdx ∧
        (recordFailure now mgr modelID statusCode).1.Candidates = mgr.Candidates ∧
        (recordFailure now mgr modelID statusCode).1.Burned = mgr.Burned ∧
        (recordFailure now mgr modelID statusCode).1.Timeouts = mgr.Timeouts)) := by
  refine ⟨by simp [stampFailure], by simp [stampFailure], ?_, ?_⟩
  · simp only [shouldSwitchOn, Bool.or_eq_true, decide_eq_true_eq]
    constructor
    · rintro ((h | h) | h)
      · exact Or.inl h
      · exact Or.inr (Or.inl h)
      · exact Or.inr (Or.inr ⟨h, now, by simp [stampFailure], by omega⟩)
    · rintro (h | h | ⟨h3, t, ht, hrecent⟩)
      · exact Or.inl (Or.inl h)
      · exact Or.inl (Or.inr h)
      · exact Or.inr h3
  · intro hfalse
    simp only [recordFailure, hfalse, Bool.false_and, if_neg (by simp : ¬(false = true))]
    exact ⟨rfl, rfl, rfl, rfl, rfl⟩

/-! ## C6 — burn is monotonic and permanent -/

lemma applyOp_burned_mono {mgr : ModelManager} {id : String} (op : MgrOp)
    (h : mgr.Burned id = true) : (applyOp mgr op).Burned id = true := by
  cases op with
  | failure now modelID statusCode =>
    show (recordFailure now mgr modelID statusCode).1.Burned id = true
    simp only [recordFailure]
    split
    · show (switchToNextModel (stampFailure now mgr modelID)).1.Burned id = true
      unfold switchToNextModel
      rw [(switchLoop_frame _ _).2.2.2.2]
      exact h
    · exact h
  | timeout modelID =>
    show (recordTimeout mgr modelID).1.Burned id = true
    simp only [recordTimeout]
    split
    · unfold switchToNextModel
      rw [(switchLoop_frame _ _).2.2.2.2]
      by_cases hid : id = modelID <;> simp [hid, h]
    · by_cases hid : id = modelID <;> simp [hid, h]
  | refresh fetched =>
    show (refreshCandidates mgr fetched).Burned id = true
    unfold refreshCandidates
    split
    · exact h
    · exact h
  | select =>
    show (modelSelect mgr).Burned id = true
    unfold modelSelect
    split
    · exact h
    · exact h

lemma applyOps_burned_mono {id : String} (ops : List MgrOp) :
    ∀ mgr : ModelManager, mgr.Burned id = true →
      (applyOps mgr ops).Burned id = true := by
  induction ops with
  | nil => intro mgr h; exact h
  | cons op rest ih => intro mgr h; exact ih _ (applyOp_burned_mono op h)

/-- C6: burn is monotonic and permanent: once `recordTimeout id` has run,
`id` is in the burned set after every subsequent sequence of failure,
timeout, refresh and select operations; no operation removes an id from
the burned set. -/
theorem burned_permanent (mgr : ModelManager) (id : String) (ops : List MgrOp) :
    (applyOps mgr (MgrOp.timeout id :: ops)).Burned id = true := by
  refine applyOps_burned_mono ops (applyOp mgr (MgrOp.timeout id)) ?_
  show (recordTimeout mgr id).1.Burned id = true
  simp only [recordTimeout]
  split
  · unfold switchToNextModel
    rw [(switchLoop_frame _ _).2.2.2.2]
    simp
  · simp

/-! ## C2 — the switch procedure -/

lemma add_mod_cancel_le {n idx i₁ i₂ : Nat} (hle : i₁ ≤ i₂) (h₂ : i₂ < n)
    (h : (idx + i₁) % n = (idx + i₂) % n) : i₁ = i₂ := by
  have hmod : Nat.ModEq n (idx + i₁) (idx + i₂) := h
  have hd : n ∣ i₂ - i₁ := by
    have hdd := (Nat.modEq_iff_dvd' (Nat.add_le_add_left hle idx)).1 hmod
    simpa [Nat.add_sub_add_left] using hdd
  have hz : i₂ - i₁ = 0 := Nat.eq_zero_of_dvd_of_lt hd (by omega)
  omega

lemma add_mod_inj {n idx i₁ i₂ : Nat} (h₁ : i₁ < n) (h₂ : i₂ < n)
    (h : (idx + i₁) % n = (idx + i₂) % n) : i₁ = i₂ := by
  rcases Nat.le_total i₁ i₂ with hle | hle
  · exact add_mod_cancel_le hle h₂ h
  · exact (add_mod_cancel_le hle h₁ h.symm).symm

lemma nodup_wrap_range (n idx : Nat) :
    ((List.range' 1 (n - 1)).map fun i => (idx + i) % n).Nodup := by
  apply List.Nodup.map_on
  · intro i₁ h₁ i₂ h₂ heq
    rw [List.mem_range'_1] at h₁ h₂
    exact add_mod_inj (by omega) (by omega) heq
  · exact List.nodup_range' 1 (n - 1)

lemma mem_wrap_range {n idx : Nat} (hn : 1 < n) (hidx : idx < n) (j : Nat) :
    (j ∈ (List.range' 1 (n - 1)).map fun i => (idx + i) % n) ↔
      (j < n ∧ j ≠ idx) := by
  rw [List.mem_map]
  constructor
  · rintro ⟨i, hi, rfl⟩
    rw [List.mem_range'_1] at hi
    refine ⟨Nat.mod_lt _ (by omega), ?_⟩
    intro hcontra
    have h0 : (idx + i) % n = (idx + 0) % n := by
      rw [Nat.add_zero, Nat.mod_eq_of_lt hidx]
      exact hcontra
    have := @add_mod_inj n idx i 0 (by omega) (by omega) h0
    omega
  · rintro ⟨hjlt, hjne⟩
    rcases Nat.lt_or_ge idx j with hlt | hge
    · refine ⟨j - idx, by rw [List.mem_range'_1]; omega, ?_⟩
      have heq : idx + (j - idx) = j := by omega
      rw [heq, Nat.mod_eq_of_lt hjlt]
    · have hjlt2 : j < idx := by omega
      refine ⟨n - (idx - j), by rw [List.mem_range'_1]; omega, ?_⟩
      have heq : idx + (n - (idx - j)) = n + j := by omega
      rw [heq, Nat.add_mod_left, Nat.mod_eq_of_lt hjlt]

/-- C2: with more than one candidate, `switchToNextModel` (invoked by both
`recordFailure` and `recordTimeout`) scans the candidate indices starting
at (current_index + 1) mod len and wrapping through all other candidates
exactly once (the scan order is duplicate-free and covers exactly the
indices other than the current one); it selects the first index in that
order whose candidate is neither burned nor has 3+ failures and reports
success, and when no such candidate exists it leaves the state unchanged
and reports failure. -/
theorem switchToNextModel_spec (mgr : ModelManager)
    (hlen : 1 < mgr.Candidates.length)
    (hidx : mgr.CurrentIdx < mgr.Candidates.length) :
    (scanOrder mgr).Nodup ∧
    (∀ j, j ∈ scanOrder mgr ↔ (j < mgr.Candidates.length ∧ j ≠ mgr.CurrentIdx)) ∧
    (match (scanOrder mgr).find? (eligibleAt mgr) with
     | some j => switchToNextModel mgr =
         ({ mgr with Current := mgr.Candidates[j]?, CurrentIdx := j }, true)
     | none => switchToNextModel mgr = (mgr, false)) := by
  refine ⟨nodup_wrap_range _ _, fun j => mem_wrap_range hlen hidx j, ?_⟩
  have key : switchToNextModel mgr =
      match (scanOrder mgr).find? (eligibleAt mgr) with
      | some j => ({ mgr with Current := mgr.Candidates[j]?, CurrentIdx := j }, true)
      | none => (mgr, false) :=
    switchLoop_eq_find mgr (List.range' 1 (mgr.Candidates.length - 1))
  cases hf : (scanOrder mgr).find? (eligibleAt mgr) with
  | some j => rw [key, hf]
  | none => rw [key, hf]

/-- A manager on which to exercise the switch procedure: three candidates,
the second burned. -/
def demoSwitchMgr : ModelManager :=
  { emptyManager with
    Candidates := [mA, mB, mC]
    Current := some mA
    CurrentIdx := 0
    Burned := fun id => id == "model-b" }

/-- C2 witness: the demo manager has more than one candidate and a valid
current index, and the switch procedure behaves as described there. -/
theorem switchToNextModel_spec_witness :
    1 < demoSwitchMgr.Candidates.length ∧
    demoSwitchMgr.CurrentIdx < demoSwitchMgr.Candidates.length ∧
    ((scanOrder demoSwitchMgr).Nodup ∧
     (∀ j, j ∈ scanOrder demoSwitchMgr ↔
        (j < demoSwitchMgr.Candidates.length ∧ j ≠ demoSwitchMgr.CurrentIdx)) ∧
     (match (scanOrder demoSwitchMgr).find? (eligibleAt demoSwitchMgr) with
      | some j =>
          switchToNextModel demoSwitchMgr =
            ({ demoSwitchMgr with
                Current := demoSwitchMgr.Candidates[j]?
                CurrentIdx := j },
              true)
      | none => switchToNextModel demoSwitchMgr = (demoSwitchMgr, false))) :=
  ⟨by decide, by decide, switchToNextModel_spec demoSwitchMgr (by decide) (by decide)⟩

/-! ## C4 — the current-index/pointer invariant (refuted and amended) -/

/-- C4 counterexample: starting from the empty initial manager, a refresh
through the candidates endpoint populates the pool but leaves the current
pointer unset, so the current model does not equal
candidates[current_index] even though candidates is non-empty. -/
theorem refresh_breaks_pointer :
    (applyOps emptyManager [MgrOp.refresh [mZero]]).Candidates ≠ [] ∧
    (applyOps emptyManager [MgrOp.refresh [mZero]]).Current ≠
      (applyOps emptyManager [MgrOp.refresh [mZero]]).Candidates[
        (applyOps emptyManager [MgrOp.refresh [mZero]]).CurrentIdx]? := by
  constructor
  · intro h
    exact absurd h (by decide)
  · intro h
    exact absurd h (by decide)

/-- The amended model-manager representation invariant: an empty pool has
index 0 and no current pointer; a non-empty pool has a valid current
index; and whenever the current pointer is set it agrees with
candidates[current_index]. -/
def managerInv (mgr : ModelManager) : Prop :=
  (mgr.Candidates = [] → (mgr.CurrentIdx = 0 ∧ mgr.Current = none)) ∧
  (mgr.Candidates ≠ [] → mgr.CurrentIdx < mgr.Candidates.length) ∧
  (mgr.Current.isSome = true → mgr.Candidates[mgr.CurrentIdx]? = mgr.Current)

lemma switchLoop_inv {mgr : ModelManager} (offsets : List Nat)
    (h : managerInv mgr) : managerInv (switchLoop mgr offsets).1 := by
  rw [switchLoop_eq_find]
  cases hf : (offsets.map fun i =>
      (mgr.CurrentIdx + i) % mgr.Candidates.length).find? (eligibleAt mgr) with
  | none => exact h
  | some j =>
    have helig : eligibleAt mgr j = true := List.find?_some hf
    obtain ⟨c, hc, -, -⟩ := eligibleAt_getElem helig
    have hj : j < mgr.Candidates.length := (List.getElem?_eq_some.1 hc).1
    refine ⟨?_, ?_, ?_⟩
    · intro hnil
      rw [hnil] at hj
      simp at hj
    · intro _
      exact hj
    · intro _
      exact rfl

lemma applyOp_inv {mgr : ModelManager} (op : MgrOp) (h : managerInv mgr) :
    managerInv (applyOp mgr op) := by
  cases op with
  | failure now modelID statusCode =>
    show managerInv (recordFailure now mgr modelID statusCode).1
    simp only [recordFailure]
    split
    · exact switchLoop_inv _ ⟨h.1, h.2.1, h.2.2⟩
    · exact ⟨h.1, h.2.1, h.2.2⟩
  | timeout modelID =>
    show managerInv (recordTimeout mgr modelID).1
    simp only [recordTimeout]
    split
    · exact switchLoop_inv _ ⟨h.1, h.2.1, h.2.2⟩
    · exact ⟨h.1, h.2.1, h.2.2⟩
  | refresh fetched =>
    show managerInv (refreshCandidates mgr fetched)
    unfold refreshCandidates
    split
    · rename_i hemp
      have hcur : mgr.Current = none := (h.1 (by simpa [List.isEmpty_iff] using hemp)).2
      refine ⟨fun _ => ⟨(h.1 (by simpa [List.isEmpty_iff] using hemp)).1, hcur⟩, ?_, ?_⟩
      · intro hne
        have : mgr.CurrentIdx = 0 := (h.1 (by simpa [List.isEmpty_iff] using hemp)).1
        rw [this]
        cases hfetch : fetched with
        | nil => exact absurd hfetch hne
        | cons a t => simp
      · intro hsome
        rw [hcur] at hsome
        cases hsome
    · exact h
  | select =>
    show managerInv (modelSelect mgr)
    unfold modelSelect
    split
    · exact h
    · rename_i hemp
      have hne : mgr.Candidates ≠ [] := by simpa [List.isEmpty_iff] using hemp
      have hpos : 0 < mgr.Candidates.length := List.length_pos.2 hne
      refine ⟨fun hnil => absurd hnil hne, ?_, ?_⟩
      · intro _
        exact Nat.mod_lt _ hpos
      · intro _
        exact rfl

/-- C4 amended: after any sequence of failure, timeout, refresh and select
operations from a state satisfying `managerInv` (as both initial managers
do), the current index is a valid index into candidates whenever the pool
is non-empty, and the current pointer, whenever it is set, equals
candidates[current_index]; the pointer can however legitimately be unset
while candidates is non-empty (see the counterexample), so pointer/index
agreement holds only conditionally on the pointer being set. -/
theorem managerInv_preserved (mgr : ModelManager) (ops : List MgrOp)
    (h : managerInv mgr) : managerInv (applyOps mgr ops) := by
  induction ops generalizing mgr with
  | nil => exact h
  | cons op rest ih => exact ih _ (applyOp_inv op h)

/-- C4 amended witness: the empty initial manager satisfies the invariant,
and so does the result of a demo operation sequence applied to it. -/
theorem managerInv_preserved_witness :
    managerInv emptyManager ∧
    managerInv (applyOps emptyManager
      [MgrOp.refresh [mA, mB], MgrOp.select, MgrOp.failure 0 "model-b" 429,
        MgrOp.timeout "model-a"]) :=
  ⟨⟨fun _ => ⟨rfl, rfl⟩, fun hne => absurd rfl hne, fun hsome => by cases hsome⟩,
    managerInv_preserved emptyManager _
      ⟨fun _ => ⟨rfl, rfl⟩, fun hne => absurd rfl hne, fun hsome => by cases hsome⟩⟩

/-! ## C7 — Anthropic request decoding -/

/-- The inbound Anthropic-style body of the spec scenario. -/
def anthropicDemoBody : List (String × Json) :=
  [("model", Json.str "x"), ("max_tokens", Json.num 10),
   ("messages", Json.arr [Json.obj [("role", Json.str "user"),
     ("content", Json.str "hi")]])]

/-- A manager whose current model is `mA`. -/
def demoMgr : ModelManager :=
  { emptyManager with Candidates := [mA, mB], Current := some mA, CurrentIdx := 0 }

/-- C7: decoding accepts content that is either a bare string or a
sequence of typed blocks, concatenating only blocks of type "text" in
order joined by newlines; a system-role message is folded in as a
user-role message; and the scenario body
`{"model":"x","max_tokens":10,"messages":[{"role":"user","content":"hi"}]}`
decodes to one user message "hi" with max_tokens 10, the model field
overwritten with the Model Manager's current id. -/
theorem convertAnthropic_decode_spec :
    (∀ s, contentOfJson (some (Json.str s)) = s) ∧
    (∀ blocks, contentOfJson (some (Json.arr blocks)) =
      String.intercalate "\n" (blocks.filterMap textOfBlock)) ∧
    (∀ fields, jsonLookup fields "role" = some (Json.str "system") →
      msgToChat (Json.obj fields) =
        some { Role := "user",
               Content := contentOfJson (jsonLookup fields "content") }) ∧
    decodeAnthropicRequest demoMgr "" anthropicDemoBody =
      Except.ok { Model := "model-a"
                  Messages := [{ Role := "user", Content := "hi" }]
                  Temperature := 7/10
                  MaxTokens := 10
                  TopP := 0
                  Stream := false } := by
  refine ⟨fun s => rfl, fun blocks => rfl, ?_, ?_⟩
  · intro fields hrole
    simp [msgToChat, hrole]
  · rfl

/-! ## C10 — silent defaults for temperature and max_tokens -/

/-- Whether a decoded JSON field is present and a number (the shape on
which Go's `.(float64)` type assertion succeeds). -/
def isNumField : Option Json → Bool
  | some (Json.num _) => true
  | _ => false

/-- C10: for every body whose temperature field is absent or not a number,
successful decoding yields temperature 0.7, and for every body whose
max_tokens field is absent or not a number, successful decoding yields
max_tokens 4096; the defaults are applied silently, the request is not
rejected for the missing fields. -/
theorem convertAnthropic_defaults (body : List (String × Json)) (req : ChatRequest)
    (hok : ConvertAnthropicToOpenAI body = Except.ok req) :
    (isNumField (jsonLookup body "temperature") = false → req.Temperature = 7/10) ∧
    (isNumField (jsonLookup body "max_tokens") = false → req.MaxTokens = 4096) := by
  simp only [ConvertAnthropicToOpenAI] at hok
  split at hok
  · rw [Except.ok.injEq] at hok
    subst hok
    refine ⟨?_, ?_⟩
    · intro ht
      show (match jsonLookup body "temperature" with
        | some (Json.num temp) => _
        | _ => _ : ChatRequest).Temperature = 7/10
      split
      · rename_i temp heq
        rw [heq] at ht
        simp [isNumField] at ht
      · split <;> split <;> rfl
    · intro hmt
      show (match jsonLookup body "temperature" with
        | some (Json.num temp) => _
        | _ => _ : ChatRequest).MaxTokens = 4096
      split
      · split
        · rename_i mt heq
          rw [heq] at hmt
          simp [isNumField] at hmt
        · split <;> rfl
      · split
        · rename_i mt heq
          rw [heq] at hmt
          simp [isNumField] at hmt
        · split <;> rfl
  · simp at hok

/-- A body with no temperature and no max_tokens. -/
def noNumBody : List (String × Json) := [("messages", Json.arr [])]

/-- The decode of `noNumBody`. -/
def noNumReq : ChatRequest :=
  { Model := "", Messages := [], Temperature := 7/10, MaxTokens := 4096,
    TopP := 0, Stream := false }

/-- C10 witness: the defaults appear on a concrete body lacking both
fields. -/
theorem convertAnthropic_defaults_witness :
    ConvertAnthropicToOpenAI noNumBody = Except.ok noNumReq ∧
    isNumField (jsonLookup noNumBody "temperature") = false ∧
    isNumField (jsonLookup noNumBody "max_tokens") = false ∧
    ((isNumField (jsonLookup noNumBody "temperature") = false →
        noNumReq.Temperature = 7/10) ∧
     (isNumField (jsonLookup noNumBody "max_tokens") = false →
        noNumReq.MaxTokens = 4096)) :=
  ⟨rfl, rfl, rfl, convertAnthropic_defaults noNumBody noNumReq rfl⟩

end FrugalAI
